import Mathlib

/-!
Verification of the gateway's network-topology, auth, receipt and POI-cache
components against their Rust sources. The Rust code is shallowly embedded:
pure functions become Lean functions, `HashMap`s become association lists in
which a later insert overwrites the earlier value for the same key, machine
integers become `Nat` with explicit `% 2^w` where overflow can occur, and
fallible code returns `Except`/`Option`.
-/

/-- Association-list model of `std::collections::HashMap::insert`: replace the
value stored under the key, or append the binding when the key is absent. -/
def hmInsert {κ α : Type} [DecidableEq κ] (m : List (κ × α)) (k : κ) (v : α) :
    List (κ × α) :=
  if m.any (fun p => p.1 = k) then
    m.map (fun p => if p.1 = k then (k, v) else p)
  else
    m ++ [(k, v)]

/-- Association-list model of `collect::<HashMap<_, _>>()`: fold the pairs into
an empty map; on duplicate keys the last value wins. -/
def hmCollect {κ α : Type} [DecidableEq κ] (l : List (κ × α)) : List (κ × α) :=
  l.foldl (fun m p => hmInsert m p.1 p.2) []

/-- Association-list model of `HashMap::get` (first matching binding). -/
def hmLookup {κ α : Type} [DecidableEq κ] (m : List (κ × α)) (k : κ) : Option α :=
  match m with
  | [] => none
  | p :: ps => if p.1 = k then some p.2 else hmLookup ps k

/-! ## Studio API key parsing (`graph-gateway/src/auth/studio.rs`)

`parse_studio_api_key` operates on the UTF-8 bytes of the bearer token, so the
embedding takes the byte string as a `List Nat` of byte values. -/

/-- Error type of `parse_studio_api_key` (`ParseError` in `auth/studio.rs`).
`InvalidHex` abstracts away the `faster_hex::Error` payload. -/
inductive ParseError : Type
  | InvalidLength (n : Nat) : ParseError
  | InvalidHex : ParseError
deriving DecidableEq, Repr

/-- Value of an ASCII hex digit byte, as accepted by `faster_hex::hex_decode`
(digits, lowercase and uppercase letters). -/
def hexNibble (b : Nat) : Option Nat :=
  if 48 ≤ b ∧ b ≤ 57 then some (b - 48)
  else if 97 ≤ b ∧ b ≤ 102 then some (b - 97 + 10)
  else if 65 ≤ b ∧ b ≤ 70 then some (b - 65 + 10)
  else none

/-- Decode a byte string of ASCII hex digits into bytes, two digits per byte
(model of `faster_hex::hex_decode` on an exact-sized output buffer). -/
def hexDecodePairs : List Nat → Option (List Nat)
  | [] => some []
  | [_] => none
  | hi :: lo :: rest => do
    let h ← hexNibble hi
    let l ← hexNibble lo
    let tail ← hexDecodePairs rest
    pure ((h * 16 + l) :: tail)

/-- `parse_studio_api_key` (`auth/studio.rs`): the input must be exactly 32
bytes long, and decode as hex into a 16-byte key. -/
def parse_studio_api_key (value : List Nat) : Except ParseError (List Nat) :=
  if value.length ≠ 32 then .error (.InvalidLength value.length)
  else
    match hexDecodePairs value with
    | none => .error .InvalidHex
    | some bytes => .ok bytes

/-- Lowercase ASCII hex digit byte for a nibble (model of the standard
lowercase hex encoding of a key). -/
def hexDigitByte (n : Nat) : Nat :=
  if n < 10 then 48 + n else 97 + (n - 10)

/-- Hex-encode a byte string, two lowercase ASCII digits per byte. -/
def hexEncode : List Nat → List Nat
  | [] => []
  | b :: rest => hexDigitByte (b / 16) :: hexDigitByte (b % 16) :: hexEncode rest

/-- A byte is an ASCII hex digit. -/
def isHexDigitByte (b : Nat) : Bool :=
  (48 ≤ b && b ≤ 57) || (97 ≤ b && b ≤ 102) || (65 ≤ b && b ≤ 70)

/-! ## Auth & authorization (`graph-gateway/src/auth/studio.rs`)

`check_token` itself is in the source; the three allowlist helpers it calls
live in `auth/common.rs`, which is not part of the sources, so they are
modelled from the spec. -/

/-- `QueryStatus` of an API key (`subgraph_studio`). -/
inductive QueryStatus : Type
  | Active
  | Inactive
  | ServiceShutoff
deriving DecidableEq, Repr

/-- The fields of a Studio `APIKey` used by `check_token`. -/
structure APIKey : Type where
  key : String
  is_subsidized : Bool
  query_status : QueryStatus
  deployments : List Nat
  subgraphs : List Nat
  domains : List String
deriving DecidableEq, Repr

/-- A resolved topology `Deployment` as seen by `check_token`: its id and the
ids of the subgraphs that refer to it. -/
structure AuthDeployment : Type where
  id : Nat
  subgraphs : List Nat
deriving DecidableEq, Repr

/-- The `AuthHandler` fields consulted by `check_token`. -/
structure AuthHandler : Type where
  api_key_payment_required : Bool
  special_api_keys : List String
deriving DecidableEq, Repr

/-- `AuthHandler::is_payment_required`. -/
def AuthHandler.is_payment_required (auth : AuthHandler) : Bool :=
  auth.api_key_payment_required

/-- `AuthHandler::is_special_key`. -/
def AuthHandler.is_special_key (auth : AuthHandler) (api_key : APIKey) : Bool :=
  auth.special_api_keys.contains api_key.key

/-- Modelled from the spec: `are_deployments_authorized` (`auth/common.rs` is
missing from the sources). "If the key lists authorized deployments, the
requested deployment must be in the list." An empty list authorizes all. -/
def are_deployments_authorized (authorized : List Nat)
    (deployments : List AuthDeployment) : Bool :=
  authorized.isEmpty || deployments.all (fun d => authorized.contains d.id)

/-- Modelled from the spec: `are_subgraphs_authorized` (`auth/common.rs` is
missing from the sources). "If the key lists authorized subgraphs, the
resolved subgraph must be in the list." An empty list authorizes all. -/
def are_subgraphs_authorized (authorized : List Nat)
    (deployments : List AuthDeployment) : Bool :=
  authorized.isEmpty ||
    deployments.all (fun d => d.subgraphs.any (fun s => authorized.contains s))

/-- Modelled from the spec: `is_domain_authorized` (`auth/common.rs` is missing
from the sources). "The `Origin` host must match one authorized domain as a
suffix match on a dot-boundary." An empty list authorizes all. -/
def is_domain_authorized (authorized : List String) (domain : String) : Bool :=
  authorized.isEmpty ||
    authorized.any (fun a => domain = a || domain.endsWith ("." ++ a))

/-- `check_token` (`auth/studio.rs`): payment gate, then deployment allowlist,
then subgraph allowlist, then domain allowlist, failing with the first error
message. -/
def check_token (auth : AuthHandler) (api_key : APIKey)
    (deployments : List AuthDeployment) (domain : String) :
    Except String Unit := do
  -- Enforce the API key payment status, unless it's being subsidized.
  if auth.is_payment_required && !api_key.is_subsidized &&
      !(auth.is_special_key api_key) then
    match api_key.query_status with
    | .Active => pure ()
    | .Inactive => throw "Querying not activated yet; make sure to add some GRT to your balance in the studio"
    | .ServiceShutoff => throw "Payment required for subsequent requests for this API key"
  if !are_deployments_authorized api_key.deployments deployments then
    throw "Deployment not authorized by user"
  if !are_subgraphs_authorized api_key.subgraphs deployments then
    throw "Subgraph not authorized by user"
  if !is_domain_authorized (api_key.domains.map id) domain then
    throw "Domain not authorized by user"

/-- The payment gate of `check_token` passes without an error for this key. -/
def paymentGatePasses (auth : AuthHandler) (api_key : APIKey) : Prop :=
  (auth.is_payment_required && !api_key.is_subsidized &&
      !(auth.is_special_key api_key)) = true →
    api_key.query_status = .Active

/-! ## Receipt signer (`src/receipts.rs`, `src/indexer_selection/allocations.rs`)

Addresses, allocation ids and secret keys are modelled as `Nat`. The EIP-712
signing primitive comes from the external `tap_core` crate and is modelled
from the spec as an ideal signature scheme; the legacy `ReceiptPool` comes
from the external `receipts` crate and is modelled from the spec as a record
of released tickets. -/

/-- `alloy` EIP-712 domain, as populated by `TapSigner::new`. -/
structure Eip712Domain : Type where
  name : Option String
  version : Option String
  chain_id : Option Nat
  verifying_contract : Option Nat
  salt : Option Nat
deriving DecidableEq, Repr

/-- `tap_core` receipt message: `{allocation_id, timestamp_ns, nonce, value}`. -/
structure TapReceipt : Type where
  allocation_id : Nat
  timestamp_ns : Nat
  nonce : Nat
  value : Nat
deriving DecidableEq, Repr

/-- Modelled from the spec: an ideal EIP-712 signature (the `tap_core` crate is
external). The signature commits to the signed domain, the signed message and
the signing key, so verification under the same domain and key recovers
exactly the original message. -/
structure Eip712Signature : Type where
  signed_domain : Eip712Domain
  signed_message : TapReceipt
  signer_key : Nat
deriving DecidableEq, Repr

/-- Modelled from the spec: producing an EIP-712 signature over the digest of
the domain and message. -/
def eip712Sign (domain : Eip712Domain) (message : TapReceipt) (key : Nat) :
    Eip712Signature :=
  { signed_domain := domain, signed_message := message, signer_key := key }

/-- `tap_core::signed_message::EIP712SignedMessage`. -/
structure EIP712SignedMessage : Type where
  message : TapReceipt
  signature : Eip712Signature
deriving DecidableEq, Repr

/-- Modelled from the spec: `EIP712SignedMessage::new` signs the message's
EIP-712 digest under the given domain with the given key. -/
def EIP712SignedMessage.new (domain : Eip712Domain) (message : TapReceipt)
    (key : Nat) : EIP712SignedMessage :=
  { message := message, signature := eip712Sign domain message key }

/-- Modelled from the spec: re-verifying the EIP-712 digest of a signed message
under a domain and an expected signer key. -/
def eip712Verify (domain : Eip712Domain) (key : Nat)
    (signed : EIP712SignedMessage) : Bool :=
  signed.signature = eip712Sign domain signed.message key

/-- `TapSigner` (`src/receipts.rs`): a signing key and the EIP-712 domain fixed
at construction. -/
structure TapSigner : Type where
  signer : Nat
  domain : Eip712Domain
deriving DecidableEq, Repr

/-- `TapSigner::new`: fixes the domain
`{name: "TAP", version: "1", chain_id, verifying_contract, salt: None}`. -/
def TapSigner.new (signer : Nat) (chain_id : Nat) (verifying_contract : Nat) :
    TapSigner :=
  { signer := signer
    domain :=
      { name := some "TAP"
        version := some "1"
        chain_id := some chain_id
        verifying_contract := some verifying_contract
        salt := none } }

/-- `TapSigner::create_receipt`: builds the message
`{allocation_id, timestamp_ns, nonce, value := fee}` and signs it under the
stored domain. The random nonce and the current UNIX timestamp are effects of
the Rust code and are taken as arguments; the `u64` conversion of the
timestamp fails for values `≥ 2^64`. -/
def TapSigner.create_receipt (s : TapSigner) (allocation : Nat) (fee : Nat)
    (nonce : Nat) (timestamp_ns : Nat) : Except String EIP712SignedMessage :=
  if timestamp_ns < 2 ^ 64 then
    .ok (EIP712SignedMessage.new s.domain
      { allocation_id := allocation
        timestamp_ns := timestamp_ns
        nonce := nonce
        value := fee } s.signer)
  else
    .error "failed to convert timestamp to ns"

/-- `receipts::QueryStatus` (re-exported as `ReceiptStatus`). -/
inductive ReceiptStatus : Type
  | Success
  | Failure
  | Unknown
deriving DecidableEq, Repr

/-- Modelled from the spec: the legacy `receipts` crate's per-allocation pool,
recorded as the allocation it serves and the tickets released back with their
terminal status. -/
structure ReceiptPool : Type where
  allocation : Nat
  released : List (List Nat × ReceiptStatus)
deriving DecidableEq, Repr

/-- Modelled from the spec: `ReceiptPool::release` returns a borrowed ticket to
the pool together with its terminal status. -/
def ReceiptPool.release (pool : ReceiptPool) (receipt : List Nat)
    (status : ReceiptStatus) : ReceiptPool :=
  { pool with released := pool.released ++ [(receipt, status)] }

/-- The `Receipt` sum type (`src/receipts.rs`). -/
inductive Receipt : Type
  | Legacy (value : Nat) (receipt : List Nat)
  | Tap (signed : EIP712SignedMessage)
deriving DecidableEq, Repr

/-- `LegacySigner` (`src/receipts.rs`): the legacy secret key and the lazily
created per-allocation receipt pools. -/
structure LegacySigner : Type where
  secret_key : Nat
  receipt_pools : List (Nat × ReceiptPool)
deriving DecidableEq, Repr

/-- `LegacySigner::record_receipt`: look the allocation's pool up; when it
exists, release the ticket into it; when it does not, do nothing. -/
def LegacySigner.record_receipt (s : LegacySigner) (allocation : Nat)
    (receipt : List Nat) (status : ReceiptStatus) : LegacySigner :=
  match hmLookup s.receipt_pools allocation with
  | some pool =>
      { s with
        receipt_pools :=
          hmInsert s.receipt_pools allocation (pool.release receipt status) }
  | none => s

/-- `ReceiptSigner` (`src/receipts.rs`). -/
structure ReceiptSigner : Type where
  tap : TapSigner
  legacy : LegacySigner
deriving DecidableEq, Repr

/-- `ReceiptSigner::record_receipt`: forwards legacy receipts to the legacy
signer and ignores TAP receipts. -/
def ReceiptSigner.record_receipt (s : ReceiptSigner) (allocation : Nat)
    (receipt : Receipt) (status : ReceiptStatus) : ReceiptSigner :=
  match receipt with
  | .Legacy _ bytes =>
      { s with legacy := s.legacy.record_receipt allocation bytes status }
  | .Tap _ => s

/-- Result of running Rust code that may `panic!`. -/
inductive PanicOr (α : Type) : Type
  | panicked (msg : String)
  | ok (value : α)
deriving DecidableEq, Repr

/-- `Allocations` (`src/indexer_selection/allocations.rs`). -/
structure Allocations : Type where
  receipts : ReceiptPool
  total_allocation : Nat
deriving DecidableEq, Repr

/-- `Allocations::release`: panics with "Unrecognized receipt format" unless
the receipt is exactly 164 bytes, and otherwise forwards to the pool. -/
def Allocations.release (a : Allocations) (receipt : List Nat)
    (status : ReceiptStatus) : PanicOr Allocations :=
  if receipt.length ≠ 164 then .panicked "Unrecognized receipt format"
  else .ok { a with receipts := a.receipts.release receipt status }

/-! ## POI resolver cache (`graph-gateway/src/network/indexer_indexing_poi_resolver.rs`)

POI cache keys are `(deployment, block)` pairs under an indexer URL string;
POIs are modelled as `Nat`. The `TtlHashMap` container comes from the external
`gateway_common` crate and is modelled from the spec (§4.3). The network fetch
is an effect and is passed in as its outcome. -/

/-- `ResolutionError` of the POI resolver: only `Timeout`. -/
inductive PoiResolutionError : Type
  | Timeout
deriving DecidableEq, Repr

/-- Modelled from the spec: `gateway_common::ttl_hash_map::TtlHashMap` — a map
with a per-entry insertion time; reads filter on `now - inserted < TTL`. -/
structure TtlHashMap : Type where
  ttl : Nat
  entries : List ((String × (Nat × Nat)) × (Nat × Nat))
deriving DecidableEq, Repr

/-- Modelled from the spec: `TtlHashMap::get` — an expired entry is treated as
absent. -/
def TtlHashMap.get (m : TtlHashMap) (now : Nat) (k : String × (Nat × Nat)) :
    Option Nat :=
  match hmLookup m.entries k with
  | some (inserted, v) => if now - inserted < m.ttl then some v else none
  | none => none

/-- Modelled from the spec: `TtlHashMap::insert` stamps the entry with the
insertion time. -/
def TtlHashMap.insert (m : TtlHashMap) (now : Nat) (k : String × (Nat × Nat))
    (v : Nat) : TtlHashMap :=
  { m with entries := hmInsert m.entries k (now, v) }

/-- `PoiResolver::get_from_cache`: collect the cached (unexpired) values for
the given keys. -/
def PoiResolver.get_from_cache (cache : TtlHashMap) (now : Nat) (url : String)
    (keys : List (Nat × Nat)) : List ((Nat × Nat) × Nat) :=
  keys.foldl
    (fun result key =>
      match cache.get now (url, key) with
      | some value => hmInsert result key value
      | none => result)
    []

/-- `PoiResolver::update_cache`: insert every fetched pair into the cache. -/
def PoiResolver.update_cache (cache : TtlHashMap) (now : Nat) (url : String)
    (data : List ((Nat × Nat) × Nat)) : TtlHashMap :=
  data.foldl (fun c p => c.insert now (url, p.1) p.2) cache

/-- `PoiResolver::resolve_with_cache`. The fetch outcome is passed in:
`none` models the fetch failing (`ResolutionError::Timeout`), and
`some fetched` models a successful fetch where each pair carries
`some poi` for an `Ok` per-pair result and `none` for a per-pair fetch error.
Returns the resolver's answer together with the updated cache. -/
def PoiResolver.resolve_with_cache (cache : TtlHashMap) (now : Nat)
    (url : String) (poi_requests : List (Nat × Nat))
    (fetched : Option (List ((Nat × Nat) × Option Nat))) :
    Except PoiResolutionError (List ((Nat × Nat) × Nat)) × TtlHashMap :=
  match fetched with
  | none =>
      -- If the data fetch failed, return the cached data
      -- If no cached data is available, return the error
      let cached_info := PoiResolver.get_from_cache cache now url poi_requests
      (if cached_info.isEmpty then .error .Timeout else .ok cached_info, cache)
  | some fetch_result =>
      let fresh_info :=
        hmCollect (fetch_result.filterMap
          (fun p => p.2.map (fun poi => (p.1, poi))))
      -- Update the cache with the fetched data, if any
      let cache' :=
        if !fresh_info.isEmpty then
          PoiResolver.update_cache cache now url fresh_info
        else cache
      -- NOTE: faithful to the source, the keys considered "missing" are the
      -- fresh keys absent from the requests, not the requested keys absent
      -- from the fresh data.
      let missing_indexings :=
        (fresh_info.map (fun p => p.1)).filter
          (fun k => !poi_requests.contains k)
      let cached_info :=
        PoiResolver.get_from_cache cache' now url missing_indexings
      (.ok (hmCollect (cached_info ++ fresh_info)), cache')

/-! ## Network topology (`graph-gateway/src/network/internal.rs`)

Addresses, deployment ids, subgraph ids, block numbers and POIs are `Nat`;
compiled cost models are opaque and represented by `Nat` identities. URLs are
modelled post-parse (the `url` crate is external) as a scheme plus an optional
host. -/

/-- A parsed `url::Url` as inspected by the pre-processing: its scheme and its
optional host. -/
structure UrlInfo : Type where
  scheme : String
  host : Option String
deriving DecidableEq, Repr

/-- `semver::Version` without pre-release/build metadata. -/
structure SemVer : Type where
  major : Nat
  minor : Nat
  patch : Nat
deriving DecidableEq, Repr

/-- Lexicographic `<` on semver triples. -/
def SemVer.lt (a b : SemVer) : Bool :=
  decide (a.major < b.major ∨ (a.major = b.major ∧
    (a.minor < b.minor ∨ (a.minor = b.minor ∧ a.patch < b.patch))))

/-- `subgraph::types::fetch_indexers` allocation: id, allocated tokens and the
deployment it is on. -/
structure FetchedAllocation : Type where
  id : Nat
  allocated_tokens : Nat
  deployment : Nat
deriving DecidableEq, Repr

/-- `subgraph::types::fetch_indexers::Indexer` as consumed by
`try_into_internal_indexer_info`, with the URL already parsed. -/
structure FetchedIndexer : Type where
  id : Nat
  url : Option UrlInfo
  staked_tokens : Nat
  allocations : List FetchedAllocation
deriving DecidableEq, Repr

/-- `types::IndexerIndexingStatusInfo`. -/
structure IndexerIndexingStatusInfo : Type where
  latest_block : Nat
  min_block : Option Nat
deriving DecidableEq, Repr

/-- `types::IndexerInfo` (the internal indexer representation). -/
structure IndexerInfo : Type where
  id : Nat
  url : UrlInfo
  staked_tokens : Nat
  deployments : List Nat
  indexer_agent_version : SemVer
  scalar_tap_version : SemVer
  graph_node_version : SemVer
  legacy_scalar : Bool
  largest_allocation : List (Nat × Nat)
  total_allocated_tokens : List (Nat × Nat)
  indexings_status : List (Nat × IndexerIndexingStatusInfo)
  indexings_cost_models : List (Nat × Nat)
deriving DecidableEq, Repr

/-- `str::starts_with`, char by char (Lean's byte-level `String.startsWith`
does not reduce definitionally). -/
def strStartsWithAux : List Char → List Char → Bool
  | _, [] => true
  | [], _ :: _ => false
  | c :: cs, d :: ds => c = d && strStartsWithAux cs ds

/-- `str::starts_with` on strings. -/
def strStartsWith (s p : String) : Bool :=
  strStartsWithAux s.data p.data

/-- `Itertools::unique`: deduplicate keeping the first occurrence of each
element, preserving order. -/
def dedupFirst {α : Type} [DecidableEq α] (l : List α) : List α :=
  l.foldl (fun acc a => if acc.contains a then acc else acc ++ [a]) []

/-- `try_into_internal_indexer_info` (`internal.rs`): validate the URL and the
allocations, build the unique deployment list (first-seen order), the largest
allocation per deployment (the first allocation on it, the fetch returning
allocations ordered by tokens descending) and the total allocated tokens per
deployment (`u128` sum, wrapping). Unresolved fields are placeholders. -/
def try_into_internal_indexer_info (indexer : FetchedIndexer) :
    Except String IndexerInfo :=
  match indexer.url with
  | none => .error "missing URL"
  | some url =>
    if !(strStartsWith url.scheme "http") then .error "invalid URL: invalid scheme"
    else if url.host = none then .error "invalid URL: missing host"
    else if indexer.allocations.isEmpty then .error "no allocations"
    else
      let indexer_deployment_ids :=
        dedupFirst (indexer.allocations.map (fun a => a.deployment))
      let indexer_indexing_largest_allocations :=
        indexer_deployment_ids.filterMap
          (fun d =>
            (indexer.allocations.find? (fun a => a.deployment = d)).map
              (fun a => (d, a.id)))
      let indexer_indexing_total_allocated_tokens :=
        indexer_deployment_ids.map
          (fun d =>
            (d,
              ((indexer.allocations.filterMap
                (fun a =>
                  if a.deployment = d then some a.allocated_tokens
                  else none)).sum) % 2 ^ 128))
      .ok
        { id := indexer.id
          url := url
          staked_tokens := indexer.staked_tokens
          deployments := indexer_deployment_ids
          indexer_agent_version := ⟨0, 0, 0⟩
          scalar_tap_version := ⟨0, 0, 0⟩
          graph_node_version := ⟨0, 0, 0⟩
          legacy_scalar := false
          largest_allocation := indexer_indexing_largest_allocations
          total_allocated_tokens := indexer_indexing_total_allocated_tokens
          indexings_status := []
          indexings_cost_models := [] }

/-- `subgraph::types::fetch_subgraphs` manifest. -/
structure FetchedManifest : Type where
  network : Option String
  start_block : Option Nat
deriving DecidableEq, Repr

/-- `subgraph::types::fetch_subgraphs` deployment allocation (the nested
indexer is represented by its id). -/
structure FetchedDeploymentAllocation : Type where
  id : Nat
  indexer_id : Nat
deriving DecidableEq, Repr

/-- `subgraph::types::fetch_subgraphs` deployment. -/
structure FetchedDeployment : Type where
  id : Nat
  manifest : Option FetchedManifest
  allocations : List FetchedDeploymentAllocation
  transferred_to_l2 : Bool
deriving DecidableEq, Repr

/-- `subgraph::types::fetch_subgraphs` subgraph version. -/
structure FetchedVersion : Type where
  version : Nat
  subgraph_deployment : FetchedDeployment
deriving DecidableEq, Repr

/-- `subgraph::types::fetch_subgraphs::Subgraph`. -/
structure FetchedSubgraph : Type where
  id : Nat
  id_on_l2 : Option Nat
  versions : List FetchedVersion
deriving DecidableEq, Repr

/-- `types::AllocationInfo`. -/
structure AllocationInfo : Type where
  id : Nat
  indexer : Nat
deriving DecidableEq, Repr

/-- `types::DeploymentInfo`. -/
structure DeploymentInfo : Type where
  id : Nat
  allocations : List AllocationInfo
  manifest_network : String
  manifest_start_block : Nat
  transferred_to_l2 : Bool
deriving DecidableEq, Repr

/-- `types::SubgraphVersionInfo`. -/
structure SubgraphVersionInfo : Type where
  version : Nat
  deployment : DeploymentInfo
deriving DecidableEq, Repr

/-- `types::SubgraphInfo`. -/
structure SubgraphInfo : Type where
  id : Nat
  id_on_l2 : Option Nat
  versions : List SubgraphVersionInfo
deriving DecidableEq, Repr

/-- The validation of one subgraph version inside
`try_into_internal_subgraph_info`: the deployment must have a manifest, the
manifest a network, and the deployment at least one allocation; the manifest
start block defaults to 0. -/
def validateSubgraphVersion (version : FetchedVersion) :
    Option SubgraphVersionInfo :=
  let deployment := version.subgraph_deployment
  match deployment.manifest with
  | none => none
  | some manifest =>
    match manifest.network with
    | none => none
    | some network =>
      if deployment.allocations.isEmpty then none
      else
        some
          { version := version.version
            deployment :=
              { id := deployment.id
                allocations :=
                  deployment.allocations.map
                    (fun a => { id := a.id, indexer := a.indexer_id })
                manifest_network := network
                manifest_start_block := manifest.start_block.getD 0
                transferred_to_l2 := deployment.transferred_to_l2 } }

/-- `try_into_internal_subgraph_info` (`internal.rs`): keep the valid versions;
error out when none remain. -/
def try_into_internal_subgraph_info (subgraph : FetchedSubgraph) :
    Except String SubgraphInfo :=
  let versions := subgraph.versions.filterMap validateSubgraphVersion
  if versions.isEmpty then .error "no valid versions found"
  else
    .ok { id := subgraph.id, id_on_l2 := subgraph.id_on_l2, versions := versions }

/-- Outcome of a timeout-bounded network fetch as seen by the caller:
the `tokio::time::timeout` elapsed, the inner fetch returned an error, or a
value was resolved. -/
inductive FetchOutcome (α : Type) : Type
  | timeout
  | failed (msg : String)
  | ok (value : α)
deriving DecidableEq, Repr

/-- `check_indexer_blocked_by_version` (`internal.rs`): resolve the agent
version (timeout or failure blocks; below-minimum blocks), derive the
scalar-tap version from the agent version against the TAP cutover version,
then resolve the graph-node version (a timeout blocks; an inner failure is
substituted by `min_graph_node_version`; below-minimum blocks) and update the
indexer. The two version fetches are effects passed in as outcomes. -/
def check_indexer_blocked_by_version (min_agent_version : SemVer)
    (min_graph_node_version : SemVer) (min_scalar_tap_version : SemVer)
    (agent_fetch : FetchOutcome SemVer) (graph_node_fetch : FetchOutcome SemVer)
    (indexer : IndexerInfo) : Except String IndexerInfo :=
  match agent_fetch with
  | .timeout => .error "agent version resolution timed out"
  | .failed _ => .error "agent version resolution failed"
  | .ok agent_version =>
    if agent_version.lt min_agent_version then
      .error "agent version below the minimum required"
    else
      let scalar_tap_version :=
        if min_scalar_tap_version.lt agent_version then agent_version
        else SemVer.mk 0 0 0
      let finish := fun (graph_node_version : SemVer) =>
        if graph_node_version.lt min_graph_node_version then
          Except.error "Graph node version below the minimum required"
        else
          Except.ok
            { indexer with
              indexer_agent_version := agent_version
              scalar_tap_version := scalar_tap_version
              graph_node_version := graph_node_version
              legacy_scalar := scalar_tap_version = SemVer.mk 0 0 0 }
      match graph_node_fetch with
      | .timeout => .error "graph-node version resolution timed out"
      | .failed _ => finish min_graph_node_version
      | .ok graph_node_version => finish graph_node_version

/-- Topology `Indexer` (`network/mod` types) as built by
`construct_network_topology_snapshot`. -/
structure Indexer : Type where
  id : Nat
  url : UrlInfo
  indexer_agent_version : SemVer
  graph_node_version : SemVer
  legacy_scalar : Bool
  indexings : List Nat
  staked_tokens : Nat
deriving DecidableEq, Repr

/-- Topology `IndexingId`: the (indexer, deployment) pair. -/
structure IndexingId : Type where
  indexer : Nat
  deployment : Nat
deriving DecidableEq, Repr

/-- Topology `IndexingStatus`. -/
structure IndexingStatus : Type where
  latest_block : Nat
  min_block : Option Nat
deriving DecidableEq, Repr

/-- Topology `Indexing`. -/
structure Indexing : Type where
  id : IndexingId
  versions_behind : Nat
  largest_allocation : Nat
  total_allocated_tokens : Nat
  indexer : Indexer
  status : Option IndexingStatus
  cost_model : Option Nat
deriving DecidableEq, Repr

/-- Topology `Subgraph`. -/
structure Subgraph : Type where
  id : Nat
  l2_id : Option Nat
  transferred_to_l2 : Bool
  chain : String
  start_block : Nat
  deployments : List Nat
  indexings : List (IndexingId × Indexing)
deriving DecidableEq, Repr

/-- Topology `Deployment`. -/
structure Deployment : Type where
  id : Nat
  transferred_to_l2 : Bool
  chain : String
  start_block : Nat
  subgraphs : List Nat
  indexings : List (IndexingId × Indexing)
deriving DecidableEq, Repr

/-- `GraphNetwork`: the network snapshot. -/
structure GraphNetwork : Type where
  deployments : List (Nat × Deployment)
  subgraphs : List (Nat × Subgraph)
deriving DecidableEq, Repr

/-- The `Indexer` record built from an `IndexerInfo` in
`construct_network_topology_snapshot` (its healthy deployments become the
indexings set). -/
def mkTopologyIndexer (indexer : IndexerInfo) : Indexer :=
  { id := indexer.id
    url := indexer.url
    indexer_agent_version := indexer.indexer_agent_version
    graph_node_version := indexer.graph_node_version
    legacy_scalar := indexer.legacy_scalar
    indexings := indexer.deployments
    staked_tokens := indexer.staked_tokens }

/-- The per-allocation indexing construction shared by the subgraphs and the
deployments loops of `construct_network_topology_snapshot`: the allocation's
indexer must be in the indexers table, the deployment must be among its
healthy deployments, and the largest-allocation and total-allocated-tokens
entries must exist; the indexing status and cost model are optional. -/
def buildIndexing (indexers_info_table : List (Nat × IndexerInfo))
    (indexings_indexers_table : List (Nat × Indexer)) (deployment_id : Nat)
    (versions_behind : Nat) (alloc_indexer : Nat) :
    Option (IndexingId × Indexing) :=
  match hmLookup indexers_info_table alloc_indexer with
  | none => none
  | some indexing_indexer_info =>
    if indexing_indexer_info.deployments.contains deployment_id then
      match hmLookup indexings_indexers_table alloc_indexer with
      | none => none
      | some indexing_indexer =>
        match hmLookup indexing_indexer_info.largest_allocation deployment_id with
        | none => none
        | some largest_allocation_addr =>
          match hmLookup indexing_indexer_info.total_allocated_tokens
              deployment_id with
          | none => none
          | some total_allocated_tokens =>
            let indexing_status :=
              (hmLookup indexing_indexer_info.indexings_status
                  deployment_id).map
                (fun s =>
                  IndexingStatus.mk s.latest_block s.min_block)
            let indexing_cost_model :=
              hmLookup indexing_indexer_info.indexings_cost_models deployment_id
            let indexing_id : IndexingId :=
              { indexer := alloc_indexer, deployment := deployment_id }
            some
              (indexing_id,
                { id := indexing_id
                  versions_behind := versions_behind
                  largest_allocation := largest_allocation_addr
                  total_allocated_tokens := total_allocated_tokens
                  indexer := indexing_indexer
                  status := indexing_status
                  cost_model := indexing_cost_model })
    else none

/-- The `subgraph_indexings` table of one subgraph in
`construct_network_topology_snapshot`: join every version's allocations
against the indexer tables. -/
def subgraphIndexings (indexers_info_table : List (Nat × IndexerInfo))
    (indexings_indexers_table : List (Nat × Indexer))
    (versions_behind_table : List (Nat × Nat))
    (versions : List SubgraphVersionInfo) : List (IndexingId × Indexing) :=
  hmCollect
    (versions.flatMap
      (fun v =>
        v.deployment.allocations.filterMap
          (fun alloc =>
            buildIndexing indexers_info_table indexings_indexers_table
              v.deployment.id
              ((hmLookup versions_behind_table v.deployment.id).getD 255)
              alloc.indexer)))

/-- One entry of the topology subgraphs table in
`construct_network_topology_snapshot`: `none` when every joined indexing was
dropped. -/
def subgraphEntry (indexers_info_table : List (Nat × IndexerInfo))
    (indexings_indexers_table : List (Nat × Indexer))
    (p : Nat × SubgraphInfo) : Option (Nat × Subgraph) :=
  match p.2.versions with
  | [] => none
  | highest_version :: _ =>
    let versions_behind_table :=
      hmCollect
        (p.2.versions.map
          (fun v =>
            (v.deployment.id, min (highest_version.version - v.version) 255)))
    let subgraph_transferred_to_l2 :=
      p.2.versions.all (fun v => v.deployment.transferred_to_l2)
    let subgraph_indexings :=
      subgraphIndexings indexers_info_table indexings_indexers_table
        versions_behind_table p.2.versions
    if subgraph_indexings.isEmpty then none
    else
      let subgraph_deployments :=
        subgraph_indexings.map (fun q => q.1.deployment)
      if subgraph_deployments.isEmpty then none
      else
        some
          (p.1,
            { id := p.2.id
              l2_id := p.2.id_on_l2
              transferred_to_l2 := subgraph_transferred_to_l2
              chain := highest_version.deployment.manifest_network
              start_block := highest_version.deployment.manifest_start_block
              deployments := subgraph_deployments
              indexings := subgraph_indexings })

/-- One entry of the topology deployments table in
`construct_network_topology_snapshot`: `none` when every joined indexing was
dropped or no published subgraph refers to the deployment. -/
def deploymentEntry (indexers_info_table : List (Nat × IndexerInfo))
    (indexings_indexers_table : List (Nat × Indexer))
    (subgraphsOut : List (Nat × Subgraph)) (p : Nat × DeploymentInfo) :
    Option (Nat × Deployment) :=
  let deployment_indexings :=
    hmCollect
      (p.2.allocations.filterMap
        (fun alloc =>
          buildIndexing indexers_info_table indexings_indexers_table p.1 0
            alloc.indexer))
  if deployment_indexings.isEmpty then none
  else
    let deployment_subgraphs :=
      subgraphsOut.filterMap
        (fun (q : Nat × Subgraph) =>
          if q.2.deployments.contains p.1 then some q.1 else none)
    if deployment_subgraphs.isEmpty then none
    else
      some
        (p.1,
          { id := p.1
            transferred_to_l2 := p.2.transferred_to_l2
            chain := p.2.manifest_network
            start_block := p.2.manifest_start_block
            subgraphs := deployment_subgraphs
            indexings := deployment_indexings })

/-- The indexers info table of `construct_network_topology_snapshot`. -/
def indexersInfoTable (indexers : List IndexerInfo) : List (Nat × IndexerInfo) :=
  hmCollect (indexers.map (fun i => (i.id, i)))

/-- `construct_network_topology_snapshot` (`internal.rs`). -/
def construct_network_topology_snapshot (indexers : List IndexerInfo)
    (subgraphs : List SubgraphInfo) : GraphNetwork :=
  let indexers_info_table := indexersInfoTable indexers
  let deployments_info_table :=
    hmCollect
      (subgraphs.flatMap
        (fun sg => sg.versions.map (fun v => (v.deployment.id, v.deployment))))
  let subgraphs_info_table := hmCollect (subgraphs.map (fun sg => (sg.id, sg)))
  let indexings_indexers_table :=
    indexers_info_table.map (fun p => (p.1, mkTopologyIndexer p.2))
  let subgraphsOut :=
    subgraphs_info_table.filterMap
      (subgraphEntry indexers_info_table indexings_indexers_table)
  let deploymentsOut :=
    deployments_info_table.filterMap
      (deploymentEntry indexers_info_table indexings_indexers_table subgraphsOut)
  { deployments := deploymentsOut, subgraphs := subgraphsOut }

/-! ## Lemmas about the association-list map model -/

theorem hmLookup_map_replace {κ α : Type} [DecidableEq κ] (m : List (κ × α))
    (k a : κ) (v : α) (h : a ≠ k) :
    hmLookup (m.map (fun p => if p.1 = k then (k, v) else p)) a =
      hmLookup m a := by
  induction m with
  | nil => rfl
  | cons p ps ih =>
    by_cases hp : p.1 = k
    · simp only [List.map_cons, if_pos hp, hmLookup]
      rw [if_neg (by exact fun hk => h hk.symm), if_neg (by rw [hp]; exact fun hk => h hk.symm)]
      exact ih
    · simp only [List.map_cons, if_neg hp, hmLookup]
      by_cases ha : p.1 = a
      · rw [if_pos ha, if_pos ha]
      · rw [if_neg ha, if_neg ha]; exact ih

theorem hmLookup_append_single {κ α : Type} [DecidableEq κ] (m : List (κ × α))
    (k a : κ) (v : α) (h : a ≠ k) :
    hmLookup (m ++ [(k, v)]) a = hmLookup m a := by
  induction m with
  | nil =>
    simp only [List.nil_append, hmLookup]
    rw [if_neg (by exact fun hk => h hk.symm)]
  | cons p ps ih =>
    simp only [List.cons_append, hmLookup]
    by_cases ha : p.1 = a
    · rw [if_pos ha, if_pos ha]
    · rw [if_neg ha, if_neg ha]; exact ih

theorem hmLookup_hmInsert_ne {κ α : Type} [DecidableEq κ] (m : List (κ × α))
    (k a : κ) (v : α) (h : a ≠ k) :
    hmLookup (hmInsert m k v) a = hmLookup m a := by
  unfold hmInsert
  split
  · exact hmLookup_map_replace m k a v h
  · exact hmLookup_append_single m k a v h

theorem mem_hmInsert {κ α : Type} [DecidableEq κ] {m : List (κ × α)} {k : κ}
    {v : α} {p : κ × α} (h : p ∈ hmInsert m k v) : p ∈ m ∨ p = (k, v) := by
  unfold hmInsert at h
  split at h
  · obtain ⟨q, hq, he⟩ := List.mem_map.1 h
    by_cases hk : q.1 = k
    · rw [if_pos hk] at he; exact Or.inr he.symm
    · rw [if_neg hk] at he; exact Or.inl (he ▸ hq)
  · rcases List.mem_append.1 h with h' | h'
    · exact Or.inl h'
    · right; simpa using h'

theorem mem_foldl_hmInsert {κ α : Type} [DecidableEq κ] (l : List (κ × α)) :
    ∀ (acc : List (κ × α)) (p : κ × α),
      p ∈ l.foldl (fun m q => hmInsert m q.1 q.2) acc → p ∈ acc ∨ p ∈ l := by
  induction l with
  | nil => intro acc p h; exact Or.inl h
  | cons q qs ih =>
    intro acc p h
    simp only [List.foldl_cons] at h
    rcases ih _ _ h with h' | h'
    · rcases mem_hmInsert h' with h'' | h''
      · exact Or.inl h''
      · right; simp [h'']
    · right; simp [h']

theorem mem_hmCollect {κ α : Type} [DecidableEq κ] {l : List (κ × α)}
    {p : κ × α} (h : p ∈ hmCollect l) : p ∈ l := by
  rcases mem_foldl_hmInsert l [] p h with h' | h'
  · simp at h'
  · exact h'

theorem hmLookup_filterMap_self {κ α : Type} [DecidableEq κ] (f : κ → Option α)
    (ids : List κ) (d : κ) :
    hmLookup (ids.filterMap (fun x => (f x).map (fun b => (x, b)))) d =
      if d ∈ ids then f d else none := by
  induction ids with
  | nil => simp [hmLookup]
  | cons x tl ih =>
    cases hfx : f x with
    | some b =>
      simp only [List.filterMap_cons, hfx, Option.map_some', hmLookup]
      by_cases hx : x = d
      · subst hx; simp [hfx]
      · rw [if_neg hx, ih]
        have hdx : ¬ d = x := fun h => hx h.symm
        simp [List.mem_cons, hdx]
    | none =>
      simp only [List.filterMap_cons, hfx, Option.map_none']
      rw [ih]
      by_cases hx : x = d
      · subst hx
        by_cases hd : x ∈ tl <;> simp [hd, hfx]
      · have hdx : ¬ d = x := fun h => hx h.symm
        simp [List.mem_cons, hdx]

theorem hmLookup_map_self {κ α : Type} [DecidableEq κ] (f : κ → α)
    (ids : List κ) (d : κ) :
    hmLookup (ids.map (fun x => (x, f x))) d =
      if d ∈ ids then some (f d) else none := by
  induction ids with
  | nil => simp [hmLookup]
  | cons x tl ih =>
    simp only [List.map_cons, hmLookup]
    by_cases hx : x = d
    · subst hx; simp
    · have hdx : ¬ d = x := fun h => hx h.symm
      rw [if_neg hx, ih]; simp [hdx]

theorem mem_dedupFirst_aux {α : Type} [DecidableEq α] (l : List α) :
    ∀ (acc : List α) (a : α),
      (a ∈ l.foldl (fun acc x => if acc.contains x then acc else acc ++ [x]) acc
        ↔ a ∈ acc ∨ a ∈ l) := by
  induction l with
  | nil => intro acc a; simp
  | cons x tl ih =>
    intro acc a
    simp only [List.foldl_cons]
    by_cases hc : acc.contains x
    · rw [if_pos hc, ih]
      have hx : x ∈ acc := by simpa using hc
      constructor
      · rintro (h | h)
        · exact Or.inl h
        · exact Or.inr (List.mem_cons_of_mem x h)
      · rintro (h | h)
        · exact Or.inl h
        · rcases List.mem_cons.1 h with h' | h'
          · exact Or.inl (h' ▸ hx)
          · exact Or.inr h'
    · rw [if_neg hc, ih]
      constructor
      · rintro (h | h)
        · rcases List.mem_append.1 h with h' | h'
          · exact Or.inl h'
          · simp at h'
            exact Or.inr (by simp [h'])
        · exact Or.inr (List.mem_cons_of_mem x h)
      · rintro (h | h)
        · exact Or.inl (List.mem_append.2 (Or.inl h))
        · rcases List.mem_cons.1 h with h' | h'
          · exact Or.inl (List.mem_append.2 (Or.inr (by simp [h'])))
          · exact Or.inr h'

theorem mem_dedupFirst {α : Type} [DecidableEq α] {l : List α} {a : α} :
    a ∈ dedupFirst l ↔ a ∈ l := by
  unfold dedupFirst
  rw [mem_dedupFirst_aux]
  simp

/-! ## Hex parsing lemmas -/

theorem hexNibble_hexDigitByte (n : Nat) (h : n < 16) :
    hexNibble (hexDigitByte n) = some n := by
  unfold hexDigitByte
  by_cases h10 : n < 10
  · rw [if_pos h10]
    unfold hexNibble
    rw [if_pos (by omega)]
    have : 48 + n - 48 = n := by omega
    rw [this]
  · rw [if_neg h10]
    unfold hexNibble
    rw [if_neg (by omega), if_pos (by omega)]
    have : 97 + (n - 10) - 97 + 10 = n := by omega
    rw [this]

theorem hexDecodePairs_hexEncode (x : List Nat) (h : ∀ b ∈ x, b < 256) :
    hexDecodePairs (hexEncode x) = some x := by
  induction x with
  | nil => rfl
  | cons b rest ih =>
    have hb : b < 256 := h b (by simp)
    have h1 : b / 16 < 16 := by omega
    have h2 : b % 16 < 16 := by omega
    have ih' := ih (fun c hc => h c (by simp [hc]))
    simp [hexEncode, hexDecodePairs, hexNibble_hexDigitByte _ h1,
      hexNibble_hexDigitByte _ h2, ih']
    omega

theorem hexEncode_length (x : List Nat) : (hexEncode x).length = 2 * x.length := by
  induction x with
  | nil => rfl
  | cons b rest ih =>
    simp only [hexEncode, List.length_cons, ih]
    omega

theorem hexNibble_none_iff (b : Nat) :
    hexNibble b = none ↔ isHexDigitByte b = false := by
  unfold hexNibble isHexDigitByte
  split_ifs <;> simp_all

theorem hexDecodePairs_isSome_iff (s : List Nat) (h : s.length % 2 = 0) :
    (hexDecodePairs s).isSome = true ↔ ∀ b ∈ s, isHexDigitByte b = true := by
  induction s using hexDecodePairs.induct with
  | case1 => simp [hexDecodePairs]
  | case2 a => simp at h
  | case3 hi lo rest ih =>
    have hrest : rest.length % 2 = 0 := by
      simp only [List.length_cons] at h
      omega
    have ih' := ih hrest
    cases h1 : hexNibble hi with
    | none =>
      have : isHexDigitByte hi = false := (hexNibble_none_iff hi).1 h1
      simp [hexDecodePairs, h1, this]
    | some v1 =>
      have hh1 : isHexDigitByte hi = true := by
        by_contra hc
        have hfalse : isHexDigitByte hi = false := by simpa using hc
        have hnone := (hexNibble_none_iff hi).2 hfalse
        rw [hnone] at h1
        exact Option.noConfusion h1
      cases h2 : hexNibble lo with
      | none =>
        have : isHexDigitByte lo = false := (hexNibble_none_iff lo).1 h2
        simp [hexDecodePairs, h1, h2, this]
      | some v2 =>
        have hh2 : isHexDigitByte lo = true := by
          by_contra hc
          have hfalse : isHexDigitByte lo = false := by simpa using hc
          have hnone := (hexNibble_none_iff lo).2 hfalse
          rw [hnone] at h2
          exact Option.noConfusion h2
        cases h3 : hexDecodePairs rest with
        | none =>
          simp [hexDecodePairs, h1, h2, h3, hh1, hh2]
          rw [h3] at ih'
          simp at ih'
          obtain ⟨b, hb, hbhex⟩ := ih'
          exact ⟨b, hb, hbhex⟩
        | some tail =>
          simp [hexDecodePairs, h1, h2, h3, hh1, hh2]
          rw [h3] at ih'
          simp at ih'
          exact ih'

/-- C7: `parse_studio_api_key` accepts exactly the 32-character hex strings:
the hex encoding of any 16-byte key parses back to the key; a string whose
byte length is not 32 fails with `InvalidLength` of that length; a 32-byte
string with a non-hex byte fails with `InvalidHex`; and parsing succeeds
exactly on 32-byte all-hex strings. -/
theorem C7_parse_studio_api_key_exact (x s : List Nat) (hx : x.length = 16)
    (hxb : ∀ b ∈ x, b < 256) :
    parse_studio_api_key (hexEncode x) = .ok x ∧
    (s.length ≠ 32 → parse_studio_api_key s = .error (.InvalidLength s.length)) ∧
    (s.length = 32 → (∃ b ∈ s, isHexDigitByte b = false) →
      parse_studio_api_key s = .error .InvalidHex) ∧
    ((parse_studio_api_key s).isOk = true ↔
      (s.length = 32 ∧ ∀ b ∈ s, isHexDigitByte b = true)) := by
  refine ⟨?_, ?_, ?_, ?_⟩
  · have hlen : (hexEncode x).length = 32 := by rw [hexEncode_length, hx]
    unfold parse_studio_api_key
    rw [if_neg (by rw [hlen]; simp), hexDecodePairs_hexEncode x hxb]
  · intro h
    unfold parse_studio_api_key
    rw [if_pos h]
  · intro hlen ⟨b, hb, hbhex⟩
    have heven : s.length % 2 = 0 := by omega
    have : ¬ (hexDecodePairs s).isSome = true := by
      rw [hexDecodePairs_isSome_iff s heven]
      intro hall
      rw [hall b hb] at hbhex
      exact Bool.noConfusion hbhex
    have hnone : hexDecodePairs s = none := by
      cases hd : hexDecodePairs s with
      | none => rfl
      | some v => rw [hd] at this; simp at this
    unfold parse_studio_api_key
    rw [if_neg (by omega), hnone]
  · unfold parse_studio_api_key
    by_cases hlen : s.length = 32
    · have heven : s.length % 2 = 0 := by omega
      rw [if_neg (by omega)]
      cases hd : hexDecodePairs s with
      | none =>
        simp only [Except.isOk, Except.toBool]
        constructor
        · intro h; exact Bool.noConfusion h
        · intro ⟨_, hall⟩
          have := (hexDecodePairs_isSome_iff s heven).2 hall
          rw [hd] at this
          simp at this
      | some v =>
        simp only [Except.isOk, Except.toBool]
        constructor
        · intro _
          refine ⟨hlen, ?_⟩
          have : (hexDecodePairs s).isSome = true := by rw [hd]; rfl
          exact (hexDecodePairs_isSome_iff s heven).1 this
        · intro _; trivial
    · rw [if_pos hlen]
      simp only [Except.isOk, Except.toBool]
      constructor
      · intro h; exact Bool.noConfusion h
      · intro ⟨h32, _⟩; exact absurd h32 hlen

/-- C7 witness: the round trip on a concrete 16-byte key, `InvalidLength` on a
31-byte input, and `InvalidHex` on a 32-byte input containing `g` (0x67). -/
theorem C7_parse_studio_api_key_exact_witness :
    parse_studio_api_key
        (hexEncode [1, 35, 69, 103, 137, 171, 205, 239,
                    1, 35, 69, 103, 137, 171, 205, 239]) =
      .ok [1, 35, 69, 103, 137, 171, 205, 239,
           1, 35, 69, 103, 137, 171, 205, 239] ∧
    parse_studio_api_key (List.replicate 31 48) =
      .error (.InvalidLength 31) ∧
    parse_studio_api_key (103 :: List.replicate 31 48) =
      .error .InvalidHex := by
  refine ⟨?_, ?_, ?_⟩
  · exact (C7_parse_studio_api_key_exact
      [1, 35, 69, 103, 137, 171, 205, 239, 1, 35, 69, 103, 137, 171, 205, 239]
      [] (by decide) (by decide)).1
  · have h := (C7_parse_studio_api_key_exact
      [1, 35, 69, 103, 137, 171, 205, 239, 1, 35, 69, 103, 137, 171, 205, 239]
      (List.replicate 31 48) (by decide) (by decide)).2.1 (by decide)
    simpa using h
  · have h := (C7_parse_studio_api_key_exact
      [1, 35, 69, 103, 137, 171, 205, 239, 1, 35, 69, 103, 137, 171, 205, 239]
      (103 :: List.replicate 31 48) (by decide) (by decide)).2.2.1 (by decide)
      ⟨103, by decide, by decide⟩
    simpa using h

/-- C10: `Allocations::release` panics with "Unrecognized receipt format" on
every receipt whose length is not exactly 164 bytes; for a 164-byte ticket (as
borrowed from the pool by `commit`) the panic branch is unreachable and the
call always forwards to the pool's `release`. -/
theorem C10_allocations_release_panic (a : Allocations) (receipt : List Nat)
    (status : ReceiptStatus) :
    (receipt.length ≠ 164 →
      a.release receipt status = .panicked "Unrecognized receipt format") ∧
    (receipt.length = 164 →
      a.release receipt status =
        .ok { a with receipts := a.receipts.release receipt status }) := by
  constructor <;> intro h <;> simp [Allocations.release, h]

/-- C10 witness: a 2-byte receipt panics; a 164-byte receipt forwards to the
pool. -/
theorem C10_allocations_release_panic_witness :
    (Allocations.mk ⟨0, []⟩ 0).release [1, 2] .Success =
      .panicked "Unrecognized receipt format" ∧
    (Allocations.mk ⟨0, []⟩ 0).release (List.replicate 164 7) .Failure =
      .ok { receipts := ⟨0, [(List.replicate 164 7, .Failure)]⟩
            total_allocation := 0 } := by
  constructor
  · exact (C10_allocations_release_panic (Allocations.mk ⟨0, []⟩ 0) [1, 2]
      .Success).1 (by decide)
  · have h := (C10_allocations_release_panic (Allocations.mk ⟨0, []⟩ 0)
      (List.replicate 164 7) .Failure).2 (by rw [List.length_replicate])
    rw [h]
    simp [ReceiptPool.release]

/-- C9: `ReceiptSigner::record_receipt` mutates at most the legacy receipt
pool of the given allocation: the TAP side is untouched, the legacy secret key
is untouched, pools of other allocations are untouched; a TAP receipt makes
the call a no-op, and a legacy receipt for an allocation without a pool also
leaves the signer unchanged. -/
theorem C9_record_receipt_frame (s : ReceiptSigner) (allocation : Nat)
    (receipt : Receipt) (status : ReceiptStatus) :
    (s.record_receipt allocation receipt status).tap = s.tap ∧
    (s.record_receipt allocation receipt status).legacy.secret_key =
      s.legacy.secret_key ∧
    (∀ a, a ≠ allocation →
      hmLookup (s.record_receipt allocation receipt status).legacy.receipt_pools
          a =
        hmLookup s.legacy.receipt_pools a) ∧
    (∀ signed, receipt = .Tap signed →
      s.record_receipt allocation receipt status = s) ∧
    (∀ value bytes, receipt = .Legacy value bytes →
      hmLookup s.legacy.receipt_pools allocation = none →
      s.record_receipt allocation receipt status = s) := by
  cases receipt with
  | Tap signed =>
    refine ⟨rfl, rfl, fun a _ => rfl, fun _ _ => rfl, fun _ _ h _ => ?_⟩
    exact Receipt.noConfusion h
  | Legacy value bytes =>
    unfold ReceiptSigner.record_receipt LegacySigner.record_receipt
    cases hp : hmLookup s.legacy.receipt_pools allocation with
    | none =>
      refine ⟨rfl, rfl, fun a _ => rfl, fun _ h => Receipt.noConfusion h,
        fun _ _ _ _ => rfl⟩
    | some pool =>
      refine ⟨rfl, rfl, fun a ha => ?_, fun _ h => Receipt.noConfusion h,
        fun v b _ hnone => ?_⟩
      · exact hmLookup_hmInsert_ne _ _ _ _ ha
      · exact Option.noConfusion hnone

/-- C9 witness: recording a TAP receipt is a no-op; recording a legacy receipt
for an allocation with no pool is a no-op; recording a legacy receipt for
allocation 5 leaves the pool of allocation 7 unchanged. -/
theorem C9_record_receipt_frame_witness :
    (ReceiptSigner.mk ⟨1, ⟨none, none, none, none, none⟩⟩
        ⟨2, [(7, ⟨7, []⟩)]⟩).record_receipt 5
        (.Tap ⟨⟨0, 0, 0, 0⟩, ⟨⟨none, none, none, none, none⟩, ⟨0, 0, 0, 0⟩, 1⟩⟩)
        .Success =
      ReceiptSigner.mk ⟨1, ⟨none, none, none, none, none⟩⟩
        ⟨2, [(7, ⟨7, []⟩)]⟩ ∧
    (ReceiptSigner.mk ⟨1, ⟨none, none, none, none, none⟩⟩
        ⟨2, [(7, ⟨7, []⟩)]⟩).record_receipt 5 (.Legacy 3 [1, 2]) .Failure =
      ReceiptSigner.mk ⟨1, ⟨none, none, none, none, none⟩⟩
        ⟨2, [(7, ⟨7, []⟩)]⟩ ∧
    hmLookup ((ReceiptSigner.mk ⟨1, ⟨none, none, none, none, none⟩⟩
        ⟨2, [(5, ⟨5, []⟩), (7, ⟨7, []⟩)]⟩).record_receipt 5 (.Legacy 3 [1, 2])
        .Failure).legacy.receipt_pools 7 =
      hmLookup [(5, ReceiptPool.mk 5 []), (7, ReceiptPool.mk 7 [])] 7 := by
  refine ⟨?_, ?_, ?_⟩
  · exact (C9_record_receipt_frame _ 5 _ .Success).2.2.2.1 _ rfl
  · exact (C9_record_receipt_frame _ 5 (.Legacy 3 [1, 2]) .Failure).2.2.2.2
      3 [1, 2] rfl (by decide)
  · exact (C9_record_receipt_frame _ 5 (.Legacy 3 [1, 2]) .Failure).2.2.1
      7 (by decide)

/-- C2: `TapSigner::create_receipt` returns a signed EIP-712 message whose
message carries the given allocation id and fee value (and the supplied nonce
and timestamp), signed under the domain
`{name: "TAP", version: "1", chain_id, verifying_contract}` fixed at
construction; re-verifying the EIP-712 digest succeeds and determines exactly
the original message. -/
theorem C2_tap_create_receipt (signer chain_id verifying_contract allocation
    fee nonce timestamp_ns : Nat) (h : timestamp_ns < 2 ^ 64) :
    ∃ signed,
      (TapSigner.new signer chain_id verifying_contract).create_receipt
          allocation fee nonce timestamp_ns = .ok signed ∧
      signed.message.allocation_id = allocation ∧
      signed.message.value = fee ∧
      signed.message.timestamp_ns = timestamp_ns ∧
      signed.message.nonce = nonce ∧
      (TapSigner.new signer chain_id verifying_contract).domain =
        { name := some "TAP", version := some "1", chain_id := some chain_id,
          verifying_contract := some verifying_contract, salt := none } ∧
      eip712Verify (TapSigner.new signer chain_id verifying_contract).domain
        signer signed = true ∧
      (∀ (m : TapReceipt) (k : Nat),
        signed.signature =
          eip712Sign (TapSigner.new signer chain_id verifying_contract).domain
            m k →
        m = signed.message) := by
  refine ⟨EIP712SignedMessage.new
    (TapSigner.new signer chain_id verifying_contract).domain
    ⟨allocation, timestamp_ns, nonce, fee⟩ signer, ?_, rfl, rfl, rfl, rfl, rfl,
    ?_, ?_⟩
  · unfold TapSigner.create_receipt
    rw [if_pos h]
    rfl
  · simp [eip712Verify, EIP712SignedMessage.new]
  · intro m k hsig
    simp only [EIP712SignedMessage.new, eip712Sign, Eip712Signature.mk.injEq]
      at hsig
    exact hsig.2.1.symm

/-- C2 witness: the spec's literal scenario — `chain_id = 1`, the
`0x177b...f89` verifier, the `0x89b2...bec2` allocation and `fee = 1000` —
instantiated with nonce 0 and timestamp 0. -/
theorem C2_tap_create_receipt_witness :
    ∃ signed,
      (TapSigner.new 207 1 0x177b557b12f22bb17a9d73dcc994d978dd6f5f89).create_receipt
          0x89b23fea4e46d40e8a4c6cca723e2a03fdd4bec2 1000 0 0 = .ok signed ∧
      signed.message.allocation_id =
        0x89b23fea4e46d40e8a4c6cca723e2a03fdd4bec2 ∧
      signed.message.value = 1000 ∧
      (TapSigner.new 207 1 0x177b557b12f22bb17a9d73dcc994d978dd6f5f89).domain =
        { name := some "TAP", version := some "1", chain_id := some 1,
          verifying_contract :=
            some 0x177b557b12f22bb17a9d73dcc994d978dd6f5f89,
          salt := none } ∧
      eip712Verify
        (TapSigner.new 207 1 0x177b557b12f22bb17a9d73dcc994d978dd6f5f89).domain
        207 signed = true := by
  obtain ⟨signed, h1, h2, h3, _, _, h6, h7, _⟩ :=
    C2_tap_create_receipt 207 1 0x177b557b12f22bb17a9d73dcc994d978dd6f5f89
      0x89b23fea4e46d40e8a4c6cca723e2a03fdd4bec2 1000 0 0 (by norm_num)
  exact ⟨signed, h1, h2, h3, h6, h7⟩

/-- C3 counterexample: a key listing deployment 1, a request for deployment 2,
payment not required. `check_token` fails, but the message shown is
"Deployment not authorized by user", not "Subgraph not authorized by user"
(the latter is the subgraph-allowlist message). -/
theorem C3_check_token_counterexample :
    check_token ⟨false, []⟩
        ⟨"0123456789abcdef0123456789abcdef", false, .Active, [1], [], []⟩
        [⟨2, []⟩] "" = .error "Deployment not authorized by user" ∧
    "Deployment not authorized by user" ≠ "Subgraph not authorized by user" := by
  constructor
  · rfl
  · decide

/-- C3 (amended): for every API key that lists authorized deployments and
every request with a requested deployment outside that list, `check_token`
fails; when the payment gate does not already reject the key, the error shown
is "Deployment not authorized by user". -/
theorem C3_check_token_deployment_allowlist (auth : AuthHandler)
    (api_key : APIKey) (deployments : List AuthDeployment) (domain : String)
    (h1 : api_key.deployments ≠ [])
    (h2 : ∃ d ∈ deployments, api_key.deployments.contains d.id = false) :
    (∃ msg, check_token auth api_key deployments domain = .error msg) ∧
    (paymentGatePasses auth api_key →
      check_token auth api_key deployments domain =
        .error "Deployment not authorized by user") := by
  have hdep : are_deployments_authorized api_key.deployments deployments
      = false := by
    unfold are_deployments_authorized
    obtain ⟨d, hd, hdc⟩ := h2
    have hne : api_key.deployments.isEmpty = false := by
      cases hk : api_key.deployments with
      | nil => exact absurd hk h1
      | cons a l => rfl
    rw [hne]
    simp only [Bool.false_or, List.all_eq_false]
    exact ⟨d, hd, by simpa using hdc⟩
  by_cases hgate : (auth.is_payment_required && !api_key.is_subsidized &&
      !(auth.is_special_key api_key)) = true
  · cases hstatus : api_key.query_status with
    | Active =>
      have hres : check_token auth api_key deployments domain =
          .error "Deployment not authorized by user" := by
        simp [check_token, hgate, hstatus, hdep]
        rfl
      exact ⟨⟨_, hres⟩, fun _ => hres⟩
    | Inactive =>
      have hres : check_token auth api_key deployments domain =
          .error "Querying not activated yet; make sure to add some GRT to your balance in the studio" := by
        simp [check_token, hgate, hstatus]
        rfl
      refine ⟨⟨_, hres⟩, fun hpass => ?_⟩
      rw [hpass hgate] at hstatus
      exact QueryStatus.noConfusion hstatus
    | ServiceShutoff =>
      have hres : check_token auth api_key deployments domain =
          .error "Payment required for subsequent requests for this API key" := by
        simp [check_token, hgate, hstatus]
        rfl
      refine ⟨⟨_, hres⟩, fun hpass => ?_⟩
      rw [hpass hgate] at hstatus
      exact QueryStatus.noConfusion hstatus
  · have hres : check_token auth api_key deployments domain =
        .error "Deployment not authorized by user" := by
      simp only [Bool.not_eq_true] at hgate
      simp [check_token, hgate, hdep]
      rfl
    exact ⟨⟨_, hres⟩, fun _ => hres⟩

/-- C3 witness: the amended claim at the counterexample input. -/
theorem C3_check_token_deployment_allowlist_witness :
    (∃ msg,
      check_token ⟨false, []⟩
          ⟨"0123456789abcdef0123456789abcdef", false, .Active, [1], [], []⟩
          [⟨2, []⟩] "" = .error msg) ∧
    check_token ⟨false, []⟩
        ⟨"0123456789abcdef0123456789abcdef", false, .Active, [1], [], []⟩
        [⟨2, []⟩] "" = .error "Deployment not authorized by user" := by
  have h := C3_check_token_deployment_allowlist ⟨false, []⟩
    ⟨"0123456789abcdef0123456789abcdef", false, .Active, [1], [], []⟩
    [⟨2, []⟩] "" (by decide) ⟨⟨2, []⟩, by simp, by decide⟩
  exact ⟨h.1, h.2 (fun _ => rfl)⟩

theorem SemVer.lt_irrefl (a : SemVer) : a.lt a = false := by
  simp [SemVer.lt]

theorem except_isOk_error {ε α : Type} (e : ε) :
    (Except.error e : Except ε α).isOk = false := rfl

theorem except_isOk_ok {ε α : Type} (a : α) :
    (Except.ok a : Except ε α).isOk = true := rfl

/-- C5 counterexample: an indexer with a resolvable, acceptable agent version
whose graph-node version fetch times out is blocked at the version stage with
"graph-node version resolution timed out" — the timeout failure is not
substituted by `min_graph_node_version`. -/
theorem C5_version_timeout_counterexample :
    check_indexer_blocked_by_version ⟨0, 0, 0⟩ ⟨0, 5, 0⟩ ⟨1, 0, 0⟩
        (.ok ⟨1, 0, 0⟩) .timeout
        ⟨1, ⟨"http", some "h"⟩, 0, [1], ⟨0, 0, 0⟩, ⟨0, 0, 0⟩, ⟨0, 0, 0⟩,
          false, [], [], [], []⟩ =
      .error "graph-node version resolution timed out" := by
  rfl

/-- C5 (amended): when the graph-node version fetch returns an error other
than the stage timeout, the version stage substitutes
`min_graph_node_version` and the indexer passes the stage (its recorded
graph-node version being the minimum); a graph-node fetch timeout blocks the
indexer. -/
theorem C5_graph_node_version_fallback (min_agent min_graph_node min_tap
    av : SemVer) (ind : IndexerInfo) (msg : String)
    (h : av.lt min_agent = false) :
    (∃ info,
      check_indexer_blocked_by_version min_agent min_graph_node min_tap
          (.ok av) (.failed msg) ind = .ok info ∧
      info.graph_node_version = min_graph_node) ∧
    check_indexer_blocked_by_version min_agent min_graph_node min_tap
        (.ok av) .timeout ind =
      .error "graph-node version resolution timed out" := by
  constructor
  · simp only [check_indexer_blocked_by_version, h, Bool.false_eq_true,
      if_false, SemVer.lt_irrefl]
    exact ⟨_, rfl, rfl⟩
  · simp only [check_indexer_blocked_by_version, h, Bool.false_eq_true,
      if_false]

/-- C5 witness: the amended claim at a concrete input (agent version 1.0.0
against minimum 0.0.0, minimum graph-node version 0.5.0). -/
theorem C5_graph_node_version_fallback_witness :
    (∃ info,
      check_indexer_blocked_by_version ⟨0, 0, 0⟩ ⟨0, 5, 0⟩ ⟨1, 0, 0⟩
          (.ok ⟨1, 0, 0⟩) (.failed "connection refused")
          ⟨1, ⟨"http", some "h"⟩, 0, [1], ⟨0, 0, 0⟩, ⟨0, 0, 0⟩, ⟨0, 0, 0⟩,
            false, [], [], [], []⟩ = .ok info ∧
      info.graph_node_version = ⟨0, 5, 0⟩) ∧
    check_indexer_blocked_by_version ⟨0, 0, 0⟩ ⟨0, 5, 0⟩ ⟨1, 0, 0⟩
        (.ok ⟨1, 0, 0⟩) .timeout
        ⟨1, ⟨"http", some "h"⟩, 0, [1], ⟨0, 0, 0⟩, ⟨0, 0, 0⟩, ⟨0, 0, 0⟩,
          false, [], [], [], []⟩ =
      .error "graph-node version resolution timed out" :=
  C5_graph_node_version_fallback ⟨0, 0, 0⟩ ⟨0, 5, 0⟩ ⟨1, 0, 0⟩ ⟨1, 0, 0⟩
    ⟨1, ⟨"http", some "h"⟩, 0, [1], ⟨0, 0, 0⟩, ⟨0, 0, 0⟩, ⟨0, 0, 0⟩,
      false, [], [], [], []⟩ "connection refused" (by decide)

/-- C6 counterexample: an indexer whose URL scheme is `httpx` — not `http`
and not `https` — is accepted by `try_into_internal_indexer_info` (the code
only requires the scheme to start with "http"), so the claimed
if-and-only-if rejection condition fails. -/
theorem C6_preprocessing_counterexample :
    (try_into_internal_indexer_info
        ⟨1, some ⟨"httpx", some "example.com"⟩, 0, [⟨1, 1, 1⟩]⟩).isOk = true ∧
    "httpx" ≠ "http" ∧ "httpx" ≠ "https" := by
  refine ⟨by decide, by decide, by decide⟩

/-- C6 (amended): pre-processing rejects exactly the invalid records: an
indexer is rejected iff it has no URL, a URL whose scheme does not start with
"http", a URL without a host, or no allocations; a subgraph is rejected iff
it has zero valid versions, a version being valid iff its deployment has a
manifest with a network and at least one allocation. -/
theorem C6_preprocessing_reject_iff (indexer : FetchedIndexer)
    (subgraph : FetchedSubgraph) :
    ((try_into_internal_indexer_info indexer).isOk = false ↔
      (indexer.url = none ∨
        (∃ u, indexer.url = some u ∧
          (strStartsWith u.scheme "http" = false ∨ u.host = none)) ∨
        indexer.allocations = [])) ∧
    ((try_into_internal_subgraph_info subgraph).isOk = false ↔
      ∀ v ∈ subgraph.versions, validateSubgraphVersion v = none) ∧
    (∀ v : FetchedVersion,
      (validateSubgraphVersion v).isSome = true ↔
        ((∃ m net, v.subgraph_deployment.manifest = some m ∧
            m.network = some net) ∧
          v.subgraph_deployment.allocations ≠ [])) := by
  refine ⟨?_, ?_, ?_⟩
  · cases hurl : indexer.url with
    | none => simp [try_into_internal_indexer_info, hurl, except_isOk_error]
    | some u =>
      by_cases hs : strStartsWith u.scheme "http"
      · by_cases hh : u.host = none
        · simp [try_into_internal_indexer_info, hurl, hs, hh,
            except_isOk_error]
        · by_cases ha : indexer.allocations = []
          · simp [try_into_internal_indexer_info, hurl, hs, hh, ha,
              List.isEmpty_iff, except_isOk_error]
          · simp [try_into_internal_indexer_info, hurl, hs, hh, ha,
              List.isEmpty_iff, except_isOk_error, except_isOk_ok]
      · simp [try_into_internal_indexer_info, hurl, hs, except_isOk_error]
  · by_cases hv : ∀ v ∈ subgraph.versions, validateSubgraphVersion v = none
    · have hnil : subgraph.versions.filterMap validateSubgraphVersion = [] :=
        List.filterMap_eq_nil_iff.2 hv
      simp [try_into_internal_subgraph_info, hnil, hv, except_isOk_error]
      exact hv
    · have hnil : subgraph.versions.filterMap validateSubgraphVersion ≠ [] :=
        fun hc => hv (List.filterMap_eq_nil_iff.1 hc)
      simp [try_into_internal_subgraph_info, List.isEmpty_iff, hnil, hv,
        except_isOk_ok]
  · intro v
    cases hm : v.subgraph_deployment.manifest with
    | none => simp [validateSubgraphVersion, hm]
    | some m =>
      cases hn : m.network with
      | none => simp [validateSubgraphVersion, hm, hn]
      | some net =>
        by_cases ha : v.subgraph_deployment.allocations = []
        · simp [validateSubgraphVersion, hm, hn, ha, List.isEmpty_iff]
        · simp [validateSubgraphVersion, hm, hn, ha, List.isEmpty_iff]

/-- The POI cache used in the `C8` evaluation: TTL 1200 s, one unexpired entry
`("u", (2, 20)) ↦ 7` inserted at time 0. -/
def c8Cache : TtlHashMap :=
  ⟨1200, [(("u", (2, 20)), (0, 7))]⟩

/-- C8: evaluation of `resolve_with_cache` at the failing input. The requests
are `[(1,10), (2,20)]`; the fetch succeeds but returns only `(1,10) ↦ 5`; the
cache holds an unexpired entry for `(2,20)`. The code returns only the fetched
pair — the cached entry for the requested-but-unfetched pair `(2,20)` is not
merged in, because the "missing" filter keeps fetched keys absent from the
requests instead of requested keys absent from the fetched data. The other two
behaviours of the claim hold at this input: the failed-fetch fallback returns
the cached entry, and a successful fetch inserts the fetched pair into the
cache. -/
theorem C8_resolve_with_cache_divergence :
    (PoiResolver.resolve_with_cache c8Cache 100 "u" [(1, 10), (2, 20)]
        (some [((1, 10), some 5)])).1 = .ok [((1, 10), 5)] ∧
    c8Cache.get 100 ("u", (2, 20)) = some 7 ∧
    (PoiResolver.resolve_with_cache c8Cache 100 "u" [(1, 10), (2, 20)]
        (some [((1, 10), some 5)])).2.get 100 ("u", (1, 10)) = some 5 ∧
    (PoiResolver.resolve_with_cache c8Cache 100 "u" [(1, 10), (2, 20)]
        none).1 = .ok [((2, 20), 7)] := by
  refine ⟨rfl, by decide, by decide, rfl⟩

theorem filterMap_if_deployment_eq (l : List FetchedAllocation) (d : Nat) :
    l.filterMap
        (fun a => if a.deployment = d then some a.allocated_tokens else none) =
      (l.filter (fun a => a.deployment = d)).map
        (fun a => a.allocated_tokens) := by
  induction l with
  | nil => rfl
  | cons x tl ih =>
    by_cases hx : x.deployment = d
    · simp [List.filterMap_cons, List.filter_cons, hx, ih]
    · simp [List.filterMap_cons, List.filter_cons, hx, ih]

theorem sorted_first_match_max (l : List FetchedAllocation) (d : Nat)
    (hs : List.Pairwise
      (fun a b => b.allocated_tokens ≤ a.allocated_tokens) l)
    {a : FetchedAllocation}
    (ha : l.find? (fun x => x.deployment = d) = some a) :
    ∀ b ∈ l, b.deployment = d → b.allocated_tokens ≤ a.allocated_tokens := by
  induction l with
  | nil => simp at ha
  | cons x tl ih =>
    by_cases hpx : x.deployment = d
    · have hfx : (x :: tl).find? (fun y => y.deployment = d) = some x := by
        simp [List.find?_cons, hpx]
      rw [hfx] at ha
      obtain rfl := Option.some.inj ha
      intro b hb hbd
      rcases List.mem_cons.1 hb with rfl | hbtl
      · exact Nat.le_refl _
      · exact (List.pairwise_cons.1 hs).1 b hbtl
    · have hfx : (x :: tl).find? (fun y => y.deployment = d) =
          tl.find? (fun y => y.deployment = d) := by
        simp [List.find?_cons, hpx]
      rw [hfx] at ha
      intro b hb hbd
      rcases List.mem_cons.1 hb with rfl | hbtl
      · exact absurd hbd hpx
      · exact ih (List.pairwise_cons.1 hs).2 ha b hbtl hbd

/-- C4: for every fetched indexer accepted by pre-processing and every
deployment in its deployment list: the recorded `total_allocated_tokens` is
the (wrapping `u128`) sum of the allocated tokens of the indexer's allocations
on that deployment; the recorded `largest_allocation` is the first allocation
on the deployment in the fetched order, which under the tokens-descending
fetch order carries the largest token amount among them; and the deployment
list is the deduplicated allocation-deployment list in first-seen order. -/
theorem C4_indexer_allocation_aggregation (indexer : FetchedIndexer)
    (info : IndexerInfo)
    (hok : try_into_internal_indexer_info indexer = .ok info)
    (hsorted : List.Pairwise
      (fun a b => b.allocated_tokens ≤ a.allocated_tokens)
      indexer.allocations) :
    info.deployments =
      dedupFirst (indexer.allocations.map (fun a => a.deployment)) ∧
    ∀ d ∈ info.deployments,
      (hmLookup info.total_allocated_tokens d =
        some ((((indexer.allocations.filter
          (fun a => a.deployment = d)).map
            (fun a => a.allocated_tokens)).sum) % 2 ^ 128)) ∧
      (∃ a, indexer.allocations.find? (fun x => x.deployment = d) = some a ∧
        hmLookup info.largest_allocation d = some a.id ∧ a.deployment = d ∧
        ∀ b ∈ indexer.allocations, b.deployment = d →
          b.allocated_tokens ≤ a.allocated_tokens) := by
  unfold try_into_internal_indexer_info at hok
  cases hurl : indexer.url with
  | none => rw [hurl] at hok; exact Except.noConfusion hok
  | some u =>
    rw [hurl] at hok
    dsimp only at hok
    split_ifs at hok with h1 h2 h3
    obtain rfl := (Except.ok.inj hok).symm
    have hd0 : ∀ d, d ∈ dedupFirst (indexer.allocations.map
        (fun a => a.deployment)) →
        (∃ a, indexer.allocations.find? (fun x => x.deployment = d) = some a) := by
      intro d hd
      obtain ⟨al, hal, hald⟩ := List.mem_map.1 (mem_dedupFirst.1 hd)
      have hfind : (indexer.allocations.find?
          (fun x => x.deployment = d)).isSome = true := by
        rw [List.find?_isSome]
        exact ⟨al, hal, by simp [hald]⟩
      exact Option.isSome_iff_exists.1 hfind
    refine ⟨rfl, fun d hd => ⟨?_, ?_⟩⟩
    · have hlk := hmLookup_map_self
        (fun e => ((indexer.allocations.filterMap
          (fun a => if a.deployment = e then some a.allocated_tokens
            else none)).sum) % 2 ^ 128)
        (dedupFirst (indexer.allocations.map (fun a => a.deployment))) d
      rw [if_pos hd] at hlk
      have heq : some ((((indexer.allocations.filterMap
          (fun a => if a.deployment = d then some a.allocated_tokens
            else none)).sum) % 2 ^ 128)) =
          some ((((indexer.allocations.filter
            (fun a => a.deployment = d)).map
              (fun a => a.allocated_tokens)).sum) % 2 ^ 128) := by
        rw [filterMap_if_deployment_eq]
      exact hlk.trans heq
    · obtain ⟨a, hfa⟩ := hd0 d hd
      have hfun : (fun e => Option.map (fun a => (e, a.id))
            (indexer.allocations.find? (fun x => x.deployment = e))) =
          (fun e => Option.map (fun b => (e, b)) (Option.map (fun a => a.id)
            (indexer.allocations.find? (fun x => x.deployment = e)))) := by
        funext e
        cases indexer.allocations.find? (fun x => x.deployment = e) <;> rfl
      have hlk := hmLookup_filterMap_self
        (fun e => Option.map (fun a => a.id)
          (indexer.allocations.find? (fun x => x.deployment = e)))
        (dedupFirst (indexer.allocations.map (fun a => a.deployment))) d
      rw [if_pos hd] at hlk
      have hmain : hmLookup (List.filterMap
          (fun e => Option.map (fun a => (e, a.id))
            (indexer.allocations.find? (fun x => x.deployment = e)))
          (dedupFirst (indexer.allocations.map (fun a => a.deployment)))) d =
          Option.map (fun a => a.id)
            (indexer.allocations.find? (fun x => x.deployment = d)) := by
        rw [hfun]; exact hlk
      refine ⟨a, hfa, ?_, ?_, ?_⟩
      · exact hmain.trans (by rw [hfa]; rfl)
      · have := List.find?_some hfa
        simpa using this
      · exact sorted_first_match_max indexer.allocations d hsorted hfa

/-- C4 witness: an indexer with allocations (tokens 50, 30, 20, descending) on
deployments 1, 2, 1: the deployment list is `[1, 2]`, deployment 1 totals
`50 + 20 = 70` tokens, and its largest allocation is allocation 10 (the
first/50-token one). -/
theorem C4_indexer_allocation_aggregation_witness :
    try_into_internal_indexer_info
        ⟨1, some ⟨"http", some "h"⟩, 0,
          [⟨10, 50, 1⟩, ⟨11, 30, 2⟩, ⟨12, 20, 1⟩]⟩ =
      .ok ⟨1, ⟨"http", some "h"⟩, 0, [1, 2], ⟨0, 0, 0⟩, ⟨0, 0, 0⟩, ⟨0, 0, 0⟩,
        false, [(1, 10), (2, 11)], [(1, 70), (2, 30)], [], []⟩ ∧
    hmLookup ([(1, 70), (2, 30)] : List (Nat × Nat)) 1 = some 70 ∧
    hmLookup ([(1, 10), (2, 11)] : List (Nat × Nat)) 1 = some 10 := by
  have h := C4_indexer_allocation_aggregation
    ⟨1, some ⟨"http", some "h"⟩, 0, [⟨10, 50, 1⟩, ⟨11, 30, 2⟩, ⟨12, 20, 1⟩]⟩
    ⟨1, ⟨"http", some "h"⟩, 0, [1, 2], ⟨0, 0, 0⟩, ⟨0, 0, 0⟩, ⟨0, 0, 0⟩,
      false, [(1, 10), (2, 11)], [(1, 70), (2, 30)], [], []⟩
    rfl (by decide)
  refine ⟨rfl, ?_, ?_⟩
  · exact ((h.2 1 (by decide)).1).trans (by rfl)
  · obtain ⟨a, hfa, hlook, _, _⟩ := (h.2 1 (by decide)).2
    have ha : a = ⟨10, 50, 1⟩ := Option.some.inj (hfa.symm.trans rfl)
    rw [ha] at hlook
    exact hlook

theorem hmLookup_map_pair {κ α β : Type} [DecidableEq κ] (g : α → β)
    (l : List (κ × α)) (k : κ) :
    hmLookup (l.map (fun p => (p.1, g p.2))) k = (hmLookup l k).map g := by
  induction l with
  | nil => rfl
  | cons p ps ih =>
    by_cases hp : p.1 = k
    · simp [hmLookup, hp]
    · simp [hmLookup, hp, ih]

theorem buildIndexing_spec (iit : List (Nat × IndexerInfo))
    (itbl : List (Nat × Indexer)) (did vb ai : Nat) (iid : IndexingId)
    (ix : Indexing) (h : buildIndexing iit itbl did vb ai = some (iid, ix)) :
    ∃ info, hmLookup iit ai = some info ∧
      info.deployments.contains did = true ∧
      hmLookup itbl ai = some ix.indexer ∧
      iid = ⟨ai, did⟩ ∧ ix.id = iid := by
  unfold buildIndexing at h
  split at h
  · exact Option.noConfusion h
  · rename_i info heq1
    split at h
    · rename_i hcond
      split at h
      · exact Option.noConfusion h
      · rename_i idxr heq2
        split at h
        · exact Option.noConfusion h
        · rename_i la heq3
          split at h
          · exact Option.noConfusion h
          · rename_i tat heq4
            have hp := Option.some.inj h
            rw [Prod.mk.injEq] at hp
            obtain ⟨hiid, hix⟩ := hp
            refine ⟨info, heq1, ?_, ?_, hiid.symm, ?_⟩
            · exact hcond
            · rw [heq2, ← hix]
            · rw [← hix]
              exact hiid
    · exact Option.noConfusion h

theorem mem_subgraphIndexings {iit : List (Nat × IndexerInfo)}
    {itbl : List (Nat × Indexer)} {vbt : List (Nat × Nat)}
    {versions : List SubgraphVersionInfo} {iid : IndexingId} {ix : Indexing}
    (h : (iid, ix) ∈ subgraphIndexings iit itbl vbt versions) :
    ∃ v ∈ versions, ∃ alloc ∈ v.deployment.allocations,
      buildIndexing iit itbl v.deployment.id
        ((hmLookup vbt v.deployment.id).getD 255) alloc.indexer =
        some (iid, ix) := by
  unfold subgraphIndexings at h
  have h' := mem_hmCollect h
  obtain ⟨v, hv, h''⟩ := List.mem_flatMap.1 h'
  obtain ⟨alloc, halloc, hb⟩ := List.mem_filterMap.1 h''
  exact ⟨v, hv, alloc, halloc, hb⟩

theorem subgraphEntry_spec (iit : List (Nat × IndexerInfo))
    (p : Nat × SubgraphInfo) (sgid : Nat) (sg : Subgraph)
    (h : subgraphEntry iit (iit.map (fun q => (q.1, mkTopologyIndexer q.2))) p
      = some (sgid, sg)) :
    sg.indexings ≠ [] ∧
    ∀ iid ix, (iid, ix) ∈ sg.indexings →
      ∃ info, hmLookup iit iid.indexer = some info ∧
        iid.deployment ∈ info.deployments ∧
        ix.indexer = mkTopologyIndexer info ∧ ix.id = iid := by
  unfold subgraphEntry at h
  cases hv : p.2.versions with
  | nil => rw [hv] at h; exact Option.noConfusion h
  | cons hv0 hvs =>
    rw [hv] at h
    dsimp only at h
    split_ifs at h with he1 he2
    have hp := Option.some.inj h
    rw [Prod.mk.injEq] at hp
    obtain ⟨hsgid, hsg⟩ := hp
    subst hsg
    constructor
    · intro hc
      rw [List.isEmpty_iff] at he1
      exact he1 hc
    · intro iid ix hmem
      obtain ⟨v, hv', alloc, halloc, hb⟩ := mem_subgraphIndexings hmem
      obtain ⟨info, hinfo, hcont, hitbl, hiid, hixid⟩ :=
        buildIndexing_spec _ _ _ _ _ _ _ hb
      refine ⟨info, ?_, ?_, ?_, hixid⟩
      · rw [hiid]
        exact hinfo
      · rw [hiid]
        simpa using hcont
      · rw [hmLookup_map_pair, hinfo] at hitbl
        exact (Option.some.inj hitbl).symm

theorem deploymentEntry_spec (iit : List (Nat × IndexerInfo))
    (subgraphsOut : List (Nat × Subgraph)) (p : Nat × DeploymentInfo)
    (did : Nat) (dep : Deployment)
    (h : deploymentEntry iit
      (iit.map (fun q => (q.1, mkTopologyIndexer q.2))) subgraphsOut p =
      some (did, dep)) :
    dep.indexings ≠ [] ∧
    (∀ iid ix, (iid, ix) ∈ dep.indexings →
      ∃ info, hmLookup iit iid.indexer = some info ∧
        iid.deployment ∈ info.deployments ∧
        ix.indexer = mkTopologyIndexer info ∧ ix.id = iid) ∧
    dep.subgraphs ≠ [] ∧
    (∀ sgid ∈ dep.subgraphs, ∃ sg, (sgid, sg) ∈ subgraphsOut ∧
      did ∈ sg.deployments) := by
  unfold deploymentEntry at h
  dsimp only at h
  split_ifs at h with he1 he2
  have hp := Option.some.inj h
  rw [Prod.mk.injEq] at hp
  obtain ⟨hdid, hdep⟩ := hp
  subst hdep
  refine ⟨?_, ?_, ?_, ?_⟩
  · intro hc
    rw [List.isEmpty_iff] at he1
    exact he1 hc
  · intro iid ix hmem
    have h' := mem_hmCollect hmem
    obtain ⟨alloc, halloc, hb⟩ := List.mem_filterMap.1 h'
    obtain ⟨info, hinfo, hcont, hitbl, hiid, hixid⟩ :=
      buildIndexing_spec _ _ _ _ _ _ _ hb
    refine ⟨info, ?_, ?_, ?_, hixid⟩
    · rw [hiid]
      exact hinfo
    · rw [hiid]
      simpa using hcont
    · rw [hmLookup_map_pair, hinfo] at hitbl
      exact (Option.some.inj hitbl).symm
  · intro hc
    rw [List.isEmpty_iff] at he2
    exact he2 hc
  · intro sgid hsgid
    obtain ⟨q, hq, hqe⟩ := List.mem_filterMap.1 hsgid
    by_cases hqc : q.2.deployments.contains p.1
    · rw [if_pos hqc] at hqe
      obtain rfl := Option.some.inj hqe
      refine ⟨q.2, hq, ?_⟩
      rw [← hdid]
      simpa using hqc
    · rw [if_neg hqc] at hqe
      exact Option.noConfusion hqe

/-- C1: in every snapshot produced by `construct_network_topology_snapshot`,
every indexing reachable from a subgraph or a deployment refers (by id and by
its embedded `Indexer` record) to an indexer in the snapshot's indexer table
with the indexing's deployment among that indexer's healthy deployments;
every subgraph in the snapshot has at least one indexing; and every
deployment in the snapshot has at least one indexing and at least one
referring subgraph present in the snapshot. -/
theorem C1_snapshot_invariants (indexers : List IndexerInfo)
    (subgraphs : List SubgraphInfo) :
    (∀ sgid sg,
      (sgid, sg) ∈
          (construct_network_topology_snapshot indexers subgraphs).subgraphs →
        sg.indexings ≠ [] ∧
        ∀ iid ix, (iid, ix) ∈ sg.indexings →
          ∃ info,
            hmLookup (indexersInfoTable indexers) iid.indexer = some info ∧
            iid.deployment ∈ info.deployments ∧
            ix.indexer = mkTopologyIndexer info ∧ ix.id = iid) ∧
    (∀ did dep,
      (did, dep) ∈
          (construct_network_topology_snapshot indexers subgraphs).deployments →
        dep.indexings ≠ [] ∧
        (∀ iid ix, (iid, ix) ∈ dep.indexings →
          ∃ info,
            hmLookup (indexersInfoTable indexers) iid.indexer = some info ∧
            iid.deployment ∈ info.deployments ∧
            ix.indexer = mkTopologyIndexer info ∧ ix.id = iid) ∧
        dep.subgraphs ≠ [] ∧
        (∀ sgid ∈ dep.subgraphs, ∃ sg,
          (sgid, sg) ∈
            (construct_network_topology_snapshot indexers subgraphs).subgraphs ∧
          did ∈ sg.deployments)) := by
  constructor
  · intro sgid sg hmem
    obtain ⟨p, hp, hpe⟩ := List.mem_filterMap.1 hmem
    exact subgraphEntry_spec (indexersInfoTable indexers) p sgid sg hpe
  · intro did dep hmem
    obtain ⟨p, hp, hpe⟩ := List.mem_filterMap.1 hmem
    exact deploymentEntry_spec (indexersInfoTable indexers) _ p did dep hpe

/-- C6 witness: the amended iff at concrete inputs — an indexer without URL is
rejected, a subgraph without versions is rejected, and a version whose
deployment has a manifest network and an allocation is valid. -/
theorem C6_preprocessing_reject_iff_witness :
    (try_into_internal_indexer_info ⟨1, none, 0, []⟩).isOk = false ∧
    (try_into_internal_subgraph_info ⟨2, none, []⟩).isOk = false ∧
    (validateSubgraphVersion
      ⟨0, ⟨3, some ⟨some "mainnet", none⟩, [⟨10, 1⟩], false⟩⟩).isSome =
      true := by
  have h := C6_preprocessing_reject_iff ⟨1, none, 0, []⟩ ⟨2, none, []⟩
  refine ⟨h.1.2 (Or.inl rfl), h.2.1.2 (by simp), ?_⟩
  exact (h.2.2 ⟨0, ⟨3, some ⟨some "mainnet", none⟩, [⟨10, 1⟩], false⟩⟩).2
    ⟨⟨⟨some "mainnet", none⟩, "mainnet", rfl, rfl⟩, by simp⟩

/-- Concrete processed indexer for the C1 witness: indexer 1 healthy on
deployment 1, largest allocation 10, 70 tokens allocated. -/
def c1Indexer : IndexerInfo :=
  ⟨1, ⟨"http", some "h"⟩, 0, [1], ⟨0, 0, 0⟩, ⟨0, 0, 0⟩, ⟨0, 0, 0⟩, false,
    [(1, 10)], [(1, 70)], [], []⟩

/-- Concrete subgraph info for the C1 witness: subgraph 5 with one version on
deployment 1, allocated by indexer 1. -/
def c1Subgraph : SubgraphInfo :=
  ⟨5, none, [⟨0, ⟨1, [⟨10, 1⟩], "mainnet", 0, false⟩⟩]⟩

/-- The snapshot subgraph the C1 witness input produces. -/
def c1SnapshotSubgraph : Subgraph :=
  { id := 5, l2_id := none, transferred_to_l2 := false, chain := "mainnet",
    start_block := 0, deployments := [1],
    indexings :=
      [(⟨1, 1⟩, ⟨⟨1, 1⟩, 0, 10, 70, mkTopologyIndexer c1Indexer, none, none⟩)] }

/-- C1 witness: the invariants instantiated on a one-indexer, one-subgraph
snapshot, discharging the membership hypotheses at the concrete entries. -/
theorem C1_snapshot_invariants_witness :
    c1SnapshotSubgraph.indexings ≠ [] ∧
    hmLookup (indexersInfoTable [c1Indexer]) (1 : Nat) = some c1Indexer ∧
    (1 : Nat) ∈ c1Indexer.deployments := by
  have h := (C1_snapshot_invariants [c1Indexer] [c1Subgraph]).1 5
    c1SnapshotSubgraph (by decide)
  exact ⟨h.1, by decide, by decide⟩
